import Mathlib

/-!
Shallow embedding of `scripts/CheckImageFiles.py`.

The script checks every `.png` file under a directory tree with an external
image loader (`tensorflow.keras.preprocessing.image.load_img`), collects the
paths that fail to load through a multiprocessing joinable queue / result
queue pipeline, writes them to `Bad_Images.csv` and returns them sorted.

Modelling choices:
* the external loader is an oracle `LoadImg : String → Except String Unit`
  (it either returns an image, modelled as `Unit`, or raises an exception,
  modelled as an error string);
* the `os.walk` traversal result is an input `List (String × List String)`
  of `(root, files)` pairs, in traversal order;
* the worker pool is a small-step machine: a state holds the joinable task
  queue (`pending`), each worker's currently dequeued item (`working`), the
  result queue (`bad`, in arrival order) and the count of `task_done` calls
  (`acks`); a schedule (a list of worker indices) chooses which worker steps;
* Python 3 semantics of `min(mp.cpu_count, n_workers)` is embedded with a
  tiny value model: comparing a builtin function object with an int raises
  `TypeError`;
* the CSV file is modelled as the pair (path, content) that the code writes.
-/

namespace CheckImageFiles

/-- The external image-loading capability: returns the loaded image
(abstracted to `Unit`) or raises an exception (abstracted to a message). -/
abbrev LoadImg := String → Except String Unit

/-- Embedding of `checkImageFile`: `try: load_img(p); return True
except: return False` — the bare `except:` catches every exception. -/
def checkImageFile (load_img : LoadImg) (image_path : String) : Bool :=
  match load_img image_path with
  | Except.ok _ => true
  | Except.error _ => false

/-! ### Python value model for the worker-count computation -/

/-- A Python value as far as `min(mp.cpu_count, n_workers)` needs:
an int, or a builtin function object such as `mp.cpu_count`. -/
inductive PyVal where
  | vint : Int → PyVal
  | vfun : String → PyVal
deriving DecidableEq, Repr

/-- Python 3 `<` on such values: defined between two ints, a `TypeError`
when a builtin function object is involved. -/
def pyLt : PyVal → PyVal → Except String Bool
  | PyVal.vint a, PyVal.vint b => Except.ok (decide (a < b))
  | _, _ => Except.error "TypeError"

/-- Python `min(a, b)`: returns `b` if `b < a` else `a`; the comparison can
raise. -/
def pyMin (a b : PyVal) : Except String PyVal :=
  match pyLt b a with
  | Except.error e => Except.error e
  | Except.ok bLtA => Except.ok (if bLtA then b else a)

/-- Embedding of the worker-count logic of `checkImages`:
`if n_workers == 0: n_workers = mp.cpu_count()
 else: n_workers = min(mp.cpu_count, n_workers)` —
note the `else` branch passes the function object itself to `min`. -/
def resolveWorkerCount (cpu_count : Int) (n_workers : Int) : Except String PyVal :=
  if n_workers == 0 then Except.ok (PyVal.vint cpu_count)
  else pyMin (PyVal.vfun "cpu_count") (PyVal.vint n_workers)

/-- Number of workers actually started (`for j in range(n_workers)`):
`range` of a negative int is empty, and a non-int value is unreachable
on the success path. -/
def pyToNat : PyVal → Nat
  | PyVal.vint n => n.toNat
  | PyVal.vfun _ => 0

/-! ### Candidate collection (`os.walk` loop) -/

/-- Embedding of Python `file[-4:]`: the last four characters, or the whole
string when it is shorter than four characters. -/
def lastFour (file : String) : String :=
  String.mk (file.data.drop (file.data.length - 4))

/-- The filter `file[-4:] == ".png"` applied to a file name. -/
def isPngFile (file : String) : Bool :=
  lastFour file == ".png"

/-- Embedding of POSIX `os.path.join(root, file)`: `b` when `b` is
absolute; plain concatenation when the root is empty or ends in a
separator; otherwise concatenation with a separator inserted. -/
def osPathJoin (a b : String) : String :=
  if b.data.take 1 = ['/'] then b
  else if a.data = [] ∨ a.data.getLast? = some '/' then a ++ b
  else a ++ "/" ++ b

/-- Embedding of the nested `os.walk` loop of `checkImages`: from each
`(root, files)` pair of the walk, keep the files passing the `.png` filter,
joined with their root. -/
def collectPngs (walk : List (String × List String)) : List String :=
  walk.flatMap (fun rf => (rf.2.filter isPngFile).map (osPathJoin rf.1))

/-- Python `<` on strings: strict lexicographic comparison of the
character sequences by code point. -/
def strLt : List Char → List Char → Bool
  | [], [] => false
  | [], _ :: _ => true
  | _ :: _, [] => false
  | a :: as, b :: bs =>
    if a < b then true
    else if b < a then false
    else strLt as bs

/-- The corresponding non-strict comparison used for sorting. -/
def strLe (s t : String) : Bool :=
  !(strLt t.data s.data)

/-- Python `list.sort()` / `sorted()` on strings: the sorted permutation
(unique, by antisymmetry of the lexicographic order on strings). -/
def sortStrings (l : List String) : List String :=
  l.insertionSort (fun a b => strLe a b = true)

/-- The sorted candidate list `pngs` of `checkImages`. -/
def pngsOf (walk : List (String × List String)) : List String :=
  sortStrings (collectPngs walk)

/-- Embedding of Python `'\n'.join(l)`. -/
def joinNl : List String → String
  | [] => ""
  | [a] => a
  | a :: b :: rest => a ++ "\n" ++ joinNl (b :: rest)

/-! ### The worker-pool machine -/

/-- State of the queue pipeline: `pending` is the joinable task queue in FIFO
order, `working i` is the item worker `i` has dequeued with `get()` but not
yet acknowledged with `task_done()`, `bad` is the result queue in arrival
order, and `acks` counts `task_done()` calls. -/
structure SysState where
  pending : List String
  working : List (Option String)
  bad : List String
  acks : Nat
deriving DecidableEq, Repr

/-- Initial state of `checkImages` after the put loop: all candidate paths
enqueued, `k` idle workers started, the result queue empty. -/
def initState (pngs : List String) (k : Nat) : SysState :=
  { pending := pngs, working := List.replicate k none, bad := [], acks := 0 }

/-- One scheduled step of worker `w`, following `imageChecker.run`:
an idle worker performs `get()` (blocking — a no-op — when the queue is
empty); a worker holding an item decodes it, puts it on the result queue on
failure, and calls `task_done()`. -/
def step (ld : LoadImg) (s : SysState) (w : Nat) : SysState :=
  match s.working.get? w with
  | none => s
  | some none =>
    match s.pending with
    | [] => s
    | p :: rest =>
      { s with pending := rest, working := s.working.set w (some p) }
  | some (some p) =>
    { s with working := s.working.set w none,
             bad := if checkImageFile ld p then s.bad else s.bad ++ [p],
             acks := s.acks + 1 }

/-- Run the machine under a schedule: a finite list of worker choices. -/
def runSched (ld : LoadImg) (s0 : SysState) (sched : List Nat) : SysState :=
  sched.foldl (step ld) s0

/-- The items currently dequeued-but-unacknowledged across the pool. -/
def heldItems (s : SysState) : List String :=
  s.working.filterMap id

/-- The outstanding count of the joinable queue is zero: `join()` returns
exactly in such states. -/
def isComplete (s : SysState) : Bool :=
  s.pending.isEmpty && s.working.all (fun o => o.isNone)

/-- The paths of a list that fail to decode — what the pipeline is meant to
collect. -/
def badFilter (ld : LoadImg) (l : List String) : List String :=
  l.filter (fun p => !checkImageFile ld p)

/-! ### The coordinator `checkImages` -/

/-- Outcome of a `checkImages` call: the returned report and the CSV file
written, as an optional (path, content) pair. -/
structure RunOutput where
  report : List String
  csv : Option (String × String)
deriving DecidableEq, Repr

/-- Embedding of `checkImages(top_dir, n_workers)`.  `Except.error` is an
uncaught Python exception; `Except.ok none` is a run on which `join()` never
returns (the schedule did not complete the work); `Except.ok (some out)` is
a normal return. -/
def checkImages (ld : LoadImg) (cpu_count : Int)
    (walk : List (String × List String)) (top_dir : String)
    (n_workers : Int) (sched : List Nat) : Except String (Option RunOutput) :=
  match resolveWorkerCount cpu_count n_workers with
  | Except.error e => Except.error e
  | Except.ok v =>
    let k := pyToNat v
    let pngs := pngsOf walk
    let final := runSched ld (initState pngs k) sched
    if isComplete final then
      let bad_imgs := final.bad
      Except.ok (some
        { report := sortStrings bad_imgs,
          csv := if bad_imgs.length > 0 then
              some (osPathJoin top_dir "Bad_Images.csv",
                    "Path\n" ++ joinNl (sortStrings bad_imgs))
            else none })
    else Except.ok none

/-! ### Coordinator event trace (for the ordering claim) -/

/-- Observable coordinator events: a `put` of a path onto the task queue,
the start of a worker, the return of `join()`, and the drain of the result
queue. -/
inductive Event where
  | putTask : String → Event
  | startWorker : Nat → Event
  | joinRet : Event
  | drainRes : Event
deriving DecidableEq, Repr

/-- The order in which `checkImages` performs these actions: the put loop,
then the worker-start loop, then `join()`, then the drain loop. -/
def coordinatorTrace (pngs : List String) (k : Nat) : List Event :=
  pngs.map Event.putTask ++ (List.range k).map Event.startWorker
    ++ [Event.joinRet, Event.drainRes]

/-- The phase of an event in the intended pipeline order. -/
def phase : Event → Nat
  | Event.putTask _ => 0
  | Event.startWorker _ => 1
  | Event.joinRet => 2
  | Event.drainRes => 3

/-! ### Concrete loaders used to exercise the model -/

/-- A loader on which every image loads. -/
def allOk : LoadImg := fun _ => Except.ok ()

/-- A loader raising exactly on `d/b.png`. -/
def failOnB : LoadImg := fun p => if p == "d/b.png" then Except.error "oops" else Except.ok ()

/-- A loader on which every image fails. -/
def failAll : LoadImg := fun _ => Except.error "corrupt"

/-! ### Machine invariant -/

/-- Two facts preserved by every step: the outstanding bookkeeping
(`task_done` calls plus still-queued plus dequeued-but-unacknowledged items
account for every enqueued item), and — counted with multiplicity — the
result queue plus the failing part of the unprocessed items make up exactly
the failing part of the input. -/
def Inv (ld : LoadImg) (pngs0 : List String) (s : SysState) : Prop :=
  s.acks + s.pending.length + (heldItems s).length = pngs0.length ∧
  ∀ x : String, s.bad.count x + (badFilter ld s.pending).count x
      + (badFilter ld (heldItems s)).count x = (badFilter ld pngs0).count x

theorem filterMap_id_set_some {α : Type} (l : List (Option α)) (w : Nat) (p : α)
    (hw : l.get? w = some none) :
    ((l.set w (some p)).filterMap id).Perm (p :: l.filterMap id) := by
  induction l generalizing w with
  | nil => simp at hw
  | cons h t ih =>
    cases w with
    | zero =>
      obtain rfl : h = none := by simpa using hw
      simp
    | succ w =>
      have hw' : t.get? w = some none := hw
      cases h with
      | none => simpa using ih w hw'
      | some a =>
        have : ((t.set w (some p)).filterMap id).Perm (p :: t.filterMap id) := ih w hw'
        simpa using ((this.cons a).trans (List.Perm.swap p a _))

theorem filterMap_id_set_none {α : Type} (l : List (Option α)) (w : Nat) (p : α)
    (hw : l.get? w = some (some p)) :
    (p :: (l.set w none).filterMap id).Perm (l.filterMap id) := by
  induction l generalizing w with
  | nil => simp at hw
  | cons h t ih =>
    cases w with
    | zero =>
      obtain rfl : h = some p := by simpa using hw
      simp
    | succ w =>
      have hw' : t.get? w = some (some p) := hw
      cases h with
      | none => simpa using ih w hw'
      | some a =>
        have : (p :: (t.set w none).filterMap id).Perm (t.filterMap id) := ih w hw'
        simpa using ((List.Perm.swap a p _).trans (this.cons a))

theorem inv_init (ld : LoadImg) (pngs : List String) (k : Nat) :
    Inv ld pngs (initState pngs k) := by
  have hrep : (List.replicate k (none : Option String)).filterMap id = [] := by
    rw [List.filterMap_eq_nil_iff]
    intro a ha
    rw [List.eq_of_mem_replicate ha]
    rfl
  constructor
  · simp [initState, heldItems, hrep]
  · intro x
    simp [initState, heldItems, hrep, badFilter]

theorem inv_step (ld : LoadImg) (pngs : List String) (s : SysState) (w : Nat)
    (h : Inv ld pngs s) : Inv ld pngs (step ld s w) := by
  obtain ⟨hlen, hcnt⟩ := h
  unfold step
  cases hw : s.working.get? w with
  | none => exact ⟨hlen, hcnt⟩
  | some o =>
    cases o with
    | none =>
      cases hp : s.pending with
      | nil => rw [hp] at hlen hcnt; exact ⟨by simpa [hp] using hlen, by simpa [hp] using hcnt⟩
      | cons p rest =>
        rw [hp] at hlen hcnt
        have hperm := filterMap_id_set_some s.working w p hw
        constructor
        · have h1 := hperm.length_eq
          simp only [heldItems] at h1 hlen ⊢
          simp only [List.length_cons] at h1 hlen ⊢
          omega
        · intro x
          have h2 := (hperm.filter (fun q => !checkImageFile ld q)).count_eq x
          have h3 := hcnt x
          simp only [heldItems, badFilter] at h2 h3 ⊢
          rw [h2]
          rw [List.filter_cons] at h3 ⊢
          by_cases hb : checkImageFile ld p
          · simp only [hb, Bool.not_true] at h3 ⊢
            simpa using h3
          · simp only [Bool.not_eq_true] at hb
            simp only [hb, Bool.not_false, if_pos] at h3 ⊢
            rw [List.count_cons] at h3 ⊢
            by_cases hpx : p = x
            · simp only [hpx] at h3 ⊢
              simp only [beq_self_eq_true, if_pos] at h3 ⊢
              omega
            · have : (p == x) = false := by
                simpa using hpx
              simp only [this] at h3 ⊢
              simp at h3 ⊢
              omega
    | some p =>
      have hperm := filterMap_id_set_none s.working w p hw
      constructor
      · have h1 := hperm.length_eq
        simp only [heldItems, List.length_cons] at h1 hlen ⊢
        omega
      · intro x
        have h2 := (hperm.filter (fun q => !checkImageFile ld q)).count_eq x
        have h3 := hcnt x
        simp only [heldItems, badFilter] at h2 h3 ⊢
        rw [← h2] at h3
        rw [List.filter_cons] at h3
        by_cases hb : checkImageFile ld p
        · simp only [hb, Bool.not_true] at h3 ⊢
          simp only [if_pos, Bool.false_eq_true, if_neg] at h3 ⊢
          simpa [hb] using h3
        · simp only [Bool.not_eq_true] at hb
          simp only [hb, Bool.not_false, if_pos] at h3
          simp only [hb, Bool.false_eq_true, if_false, List.count_append, List.count_cons,
            List.count_nil] at h3 ⊢
          omega

theorem inv_runSched (ld : LoadImg) (pngs : List String) (s : SysState)
    (sched : List Nat) (h : Inv ld pngs s) : Inv ld pngs (runSched ld s sched) := by
  induction sched generalizing s with
  | nil => exact h
  | cons w ws ih => exact ih (step ld s w) (inv_step ld pngs s w h)

theorem complete_fields (s : SysState) (hc : isComplete s = true) :
    s.pending = [] ∧ heldItems s = [] := by
  unfold isComplete at hc
  rw [Bool.and_eq_true] at hc
  obtain ⟨h1, h2⟩ := hc
  refine ⟨List.isEmpty_iff.mp h1, ?_⟩
  rw [heldItems, List.filterMap_eq_nil_iff]
  intro a ha
  exact Option.isNone_iff_eq_none.mp (List.all_eq_true.mp h2 a ha)

theorem runSched_complete_acks (ld : LoadImg) (pngs : List String) (k : Nat)
    (sched : List Nat)
    (hc : isComplete (runSched ld (initState pngs k) sched) = true) :
    (runSched ld (initState pngs k) sched).acks = pngs.length := by
  obtain ⟨hlen, -⟩ := inv_runSched ld pngs (initState pngs k) sched (inv_init ld pngs k)
  obtain ⟨hp, hh⟩ := complete_fields _ hc
  rw [hp, hh] at hlen
  simpa using hlen

theorem runSched_complete_bad_perm (ld : LoadImg) (pngs : List String) (k : Nat)
    (sched : List Nat)
    (hc : isComplete (runSched ld (initState pngs k) sched) = true) :
    (runSched ld (initState pngs k) sched).bad.Perm (badFilter ld pngs) := by
  obtain ⟨-, hcnt⟩ := inv_runSched ld pngs (initState pngs k) sched (inv_init ld pngs k)
  obtain ⟨hp, hh⟩ := complete_fields _ hc
  rw [List.perm_iff_count]
  intro x
  have h := hcnt x
  rw [hp, hh] at h
  simpa [badFilter] using h

/-! ### Sorting, joining and inversion helpers -/

theorem strLt_iff (s t : List Char) : strLt s t = true ↔ List.Lex (· < ·) s t := by
  induction s generalizing t with
  | nil =>
    cases t with
    | nil =>
      constructor
      · intro h; exact absurd h (by simp [strLt])
      · intro h; exact nomatch h
    | cons b bs =>
      constructor
      · intro _; exact List.Lex.nil
      · intro _; rfl
  | cons a as ih =>
    cases t with
    | nil =>
      constructor
      · intro h; exact absurd h (by simp [strLt])
      · intro h; exact nomatch h
    | cons b bs =>
      rw [strLt]
      rcases lt_trichotomy a b with hab | hab | hab
      · rw [if_pos hab]
        constructor
        · intro _; exact List.Lex.rel hab
        · intro _; rfl
      · subst hab
        rw [if_neg (lt_irrefl a), if_neg (lt_irrefl a), ih bs]
        constructor
        · intro h; exact List.Lex.cons h
        · intro h
          cases h with
          | rel h2 => exact absurd h2 (lt_irrefl a)
          | cons h2 => exact h2
      · rw [if_neg (lt_asymm hab), if_pos hab]
        constructor
        · intro h; exact absurd h (by simp)
        · intro h
          cases h with
          | rel h2 => exact absurd hab (lt_asymm h2)
          | cons h2 => exact absurd hab (lt_irrefl a)

theorem strLe_iff (s t : String) : strLe s t = true ↔ s ≤ t := by
  have h2 : t < s ↔ List.Lex (· < ·) t.data s.data := String.lt_iff_toList_lt
  rw [← not_lt, h2, ← strLt_iff t.data s.data]
  unfold strLe
  cases hx : strLt t.data s.data <;> simp [hx]

theorem strLe_total (a b : String) : strLe a b = true ∨ strLe b a = true := by
  rw [strLe_iff, strLe_iff]; exact le_total a b

theorem strLe_trans_thm (a b c : String)
    (hab : strLe a b = true) (hbc : strLe b c = true) : strLe a c = true := by
  rw [strLe_iff] at hab hbc ⊢; exact le_trans hab hbc

theorem strLe_antisymm_thm (a b : String)
    (hab : strLe a b = true) (hba : strLe b a = true) : a = b := by
  rw [strLe_iff] at hab hba; exact le_antisymm hab hba

theorem sortStrings_sorted (l : List String) :
    List.Sorted (fun a b => strLe a b = true) (sortStrings l) :=
  @List.sorted_insertionSort String (fun a b => strLe a b = true) _
    ⟨strLe_total⟩ ⟨strLe_trans_thm⟩ l

theorem sortStrings_perm (l : List String) : (sortStrings l).Perm l :=
  List.perm_insertionSort (fun a b => strLe a b = true) l

theorem sortStrings_congr {l₁ l₂ : List String} (h : l₁.Perm l₂) :
    sortStrings l₁ = sortStrings l₂ :=
  @List.eq_of_perm_of_sorted String (fun a b => strLe a b = true) ⟨strLe_antisymm_thm⟩ _ _
    ((sortStrings_perm l₁).trans (h.trans (sortStrings_perm l₂).symm))
    (sortStrings_sorted l₁) (sortStrings_sorted l₂)

theorem sortStrings_sorted_le (l : List String) :
    List.Sorted (· ≤ ·) (sortStrings l) :=
  List.Pairwise.imp (fun h => (strLe_iff _ _).mp h) (sortStrings_sorted l)

theorem joinNl_length (l : List String) :
    (joinNl l).length = (l.map String.length).sum + (l.length - 1) := by
  induction l with
  | nil => simp [joinNl]
  | cons a t ih =>
    cases t with
    | nil => simp [joinNl]
    | cons b rest =>
      rw [joinNl, String.length_append, String.length_append, ih]
      simp only [List.map_cons, List.sum_cons, List.length_cons]
      have : ("\n" : String).length = 1 := rfl
      rw [this]
      omega

theorem checkImages_ok (ld : LoadImg) (cpu_count : Int)
    (walk : List (String × List String)) (top_dir : String)
    (n_workers : Int) (sched : List Nat) (out : RunOutput)
    (h : checkImages ld cpu_count walk top_dir n_workers sched = Except.ok (some out)) :
    ∃ k, isComplete (runSched ld (initState (pngsOf walk) k) sched) = true ∧
      out.report = sortStrings (badFilter ld (pngsOf walk)) ∧
      out.csv = (if badFilter ld (pngsOf walk) = [] then none
                 else some (osPathJoin top_dir "Bad_Images.csv",
                            "Path\n" ++ joinNl out.report)) := by
  unfold checkImages at h
  split at h
  · exact absurd h (by simp)
  · next v heq =>
    simp only at h
    split at h
    · next hc =>
      refine ⟨pyToNat v, hc, ?_⟩
      have hperm := runSched_complete_bad_perm ld (pngsOf walk) (pyToNat v) sched hc
      obtain rfl := Option.some.inj (Except.ok.inj h)
      have hrep : sortStrings (runSched ld (initState (pngsOf walk) (pyToNat v)) sched).bad
          = sortStrings (badFilter ld (pngsOf walk)) := sortStrings_congr hperm
      refine ⟨hrep, ?_⟩
      have hlen := hperm.length_eq
      by_cases hnil : badFilter ld (pngsOf walk) = []
      · rw [if_pos hnil]
        rw [hnil] at hlen
        simp only [List.length_nil] at hlen
        simp [hlen]
      · rw [if_neg hnil]
        have : (runSched ld (initState (pngsOf walk) (pyToNat v)) sched).bad.length > 0 := by
          rw [hlen]
          cases hbf : badFilter ld (pngsOf walk) with
          | nil => exact absurd hbf hnil
          | cons y ys => simp
        simp only [this, if_pos]
    · exact absurd h (by simp)

theorem drop_sub_length_eq_iff {α : Type} (l t : List α) :
    l.drop (l.length - t.length) = t ↔ t.IsSuffix l := by
  constructor
  · intro h
    refine ⟨l.take (l.length - t.length), ?_⟩
    have htad := List.take_append_drop (l.length - t.length) l
    rw [h] at htad
    exact htad
  · rintro ⟨s, rfl⟩
    have hl : (s ++ t).length - t.length = s.length := by
      rw [List.length_append]; omega
    rw [hl, List.drop_left]

theorem trace_phase (pngs : List String) (k : Nat) (i : Nat) (e : Event)
    (h : (coordinatorTrace pngs k).get? i = some e) :
    (phase e = 0 ∧ i < pngs.length) ∨
    (phase e = 1 ∧ pngs.length ≤ i ∧ i < pngs.length + k) ∨
    (phase e = 2 ∧ i = pngs.length + k) ∨
    (phase e = 3 ∧ i = pngs.length + k + 1) := by
  unfold coordinatorTrace at h
  rw [List.append_assoc] at h
  by_cases h1 : i < pngs.length
  · left
    rw [List.get?_append (by simpa using h1), List.get?_map] at h
    cases hp : pngs.get? i with
    | none => rw [hp] at h; simp at h
    | some q =>
      rw [hp] at h
      obtain rfl : Event.putTask q = e := by simpa using h
      exact ⟨rfl, h1⟩
  · have h1' : pngs.length ≤ i := Nat.le_of_not_lt h1
    rw [List.get?_append_right (by simpa using h1')] at h
    simp only [List.length_map] at h
    by_cases h2 : i - pngs.length < k
    · right; left
      rw [List.get?_append (by simpa using h2), List.get?_map, List.get?_range h2] at h
      obtain rfl : Event.startWorker (i - pngs.length) = e := by simpa using h
      exact ⟨rfl, h1', by omega⟩
    · have h2' : k ≤ i - pngs.length := Nat.le_of_not_lt h2
      rw [List.get?_append_right (by simpa using h2')] at h
      simp only [List.length_map, List.length_range] at h
      cases hd : i - pngs.length - k with
      | zero =>
        rw [hd] at h
        obtain rfl : Event.joinRet = e := by simpa using h
        right; right; left
        exact ⟨rfl, by omega⟩
      | succ m =>
        cases m with
        | zero =>
          rw [hd] at h
          obtain rfl : Event.drainRes = e := by simpa using h
          right; right; right
          exact ⟨rfl, by omega⟩
        | succ m2 => rw [hd] at h; simp at h

/-! ### The claims -/

/-- Claim C1: on every run on which the outstanding count reaches zero (the
states in which `join()` returns), the number of `task_done` calls equals the
number of enqueued items — the worker loop acknowledges every dequeued item
because `checkImageFile` converts every exception of the loader into a
boolean, so no path skips `task_done`. -/
theorem c1_acks_eq_enqueued (ld : LoadImg) (pngs : List String) (k : Nat)
    (sched : List Nat)
    (hc : isComplete (runSched ld (initState pngs k) sched) = true) :
    (runSched ld (initState pngs k) sched).acks = pngs.length :=
  runSched_complete_acks ld pngs k sched hc

theorem c1_acks_eq_enqueued_witness :
    isComplete (runSched allOk (initState ["a.png", "b.png"] 1) [0, 0, 0, 0]) = true ∧
    (runSched allOk (initState ["a.png", "b.png"] 1) [0, 0, 0, 0]).acks
      = (["a.png", "b.png"] : List String).length :=
  ⟨by decide, c1_acks_eq_enqueued allOk ["a.png", "b.png"] 1 [0, 0, 0, 0] (by decide)⟩

/-- Claim C2: a candidate path appears in the report returned by
`checkImages` if and only if `checkImageFile` on it is `false`, i.e. the
loader returned failure or raised. -/
theorem c2_report_iff_decode_failure (ld : LoadImg) (cpu_count : Int)
    (walk : List (String × List String)) (top_dir : String) (n_workers : Int)
    (sched : List Nat) (out : RunOutput) (p : String)
    (h : checkImages ld cpu_count walk top_dir n_workers sched = Except.ok (some out))
    (hp : p ∈ pngsOf walk) :
    p ∈ out.report ↔ checkImageFile ld p = false := by
  obtain ⟨k, hc, hrep, -⟩ :=
    checkImages_ok ld cpu_count walk top_dir n_workers sched out h
  rw [hrep]
  rw [(sortStrings_perm (badFilter ld (pngsOf walk))).mem_iff]
  simp [badFilter, List.mem_filter, hp]

theorem c2_report_iff_decode_failure_witness :
    checkImages failOnB 1 [("d", ["b.png", "a.png"])] "d" 0 [0, 0, 0, 0]
      = Except.ok (some { report := ["d/b.png"],
                          csv := some ("d/Bad_Images.csv", "Path\nd/b.png") }) ∧
    "d/b.png" ∈ pngsOf [("d", ["b.png", "a.png"])] ∧
    ("d/b.png" ∈ ({ report := ["d/b.png"],
                    csv := some ("d/Bad_Images.csv", "Path\nd/b.png") } : RunOutput).report
      ↔ checkImageFile failOnB "d/b.png" = false) :=
  ⟨rfl,
   by
     have hv : pngsOf [("d", ["b.png", "a.png"])] = ["d/a.png", "d/b.png"] := rfl
     rw [hv]; simp,
   c2_report_iff_decode_failure failOnB 1 [("d", ["b.png", "a.png"])] "d" 0 [0, 0, 0, 0]
     { report := ["d/b.png"], csv := some ("d/Bad_Images.csv", "Path\nd/b.png") }
     "d/b.png" rfl
     (by
       have hv : pngsOf [("d", ["b.png", "a.png"])] = ["d/a.png", "d/b.png"] := rfl
       rw [hv]; simp)⟩

/-- Claim C3 (the code diverges from it): with an unspecified count (0) the
code does use the host's core count, but for every explicit nonzero count —
valid or not — `min(mp.cpu_count, n_workers)` compares the *function object*
`mp.cpu_count` with an int, which raises `TypeError` in Python 3 instead of
clamping the value into `[1, cpu_count()]`. -/
theorem c3_worker_count_resolution (cpu_count : Int) (m : Nat) :
    resolveWorkerCount cpu_count 0 = Except.ok (PyVal.vint cpu_count) ∧
    resolveWorkerCount cpu_count (Int.ofNat (m + 1)) = Except.error "TypeError" ∧
    resolveWorkerCount cpu_count (Int.negSucc m) = Except.error "TypeError" :=
  ⟨rfl, rfl, rfl⟩

/-- Claim C4 (the code diverges from it): requesting exactly 1 worker never
returns a report at all — `checkImages` raises `TypeError` in the
worker-count computation before processing a single file, for every
directory, loader and schedule. -/
theorem c4_one_worker_crashes (ld : LoadImg) (cpu_count : Int)
    (walk : List (String × List String)) (top_dir : String) (sched : List Nat) :
    checkImages ld cpu_count walk top_dir 1 sched = Except.error "TypeError" := rfl

/-- Claim C5: the CSV file is written if and only if at least one decode
failure occurred; it is placed at `top_dir/Bad_Images.csv` with content the
header line `Path` followed by the sorted failed paths; with no failure, no
file is written and the report is empty. -/
theorem c5_csv_iff_failures (ld : LoadImg) (cpu_count : Int)
    (walk : List (String × List String)) (top_dir : String) (n_workers : Int)
    (sched : List Nat) (out : RunOutput)
    (h : checkImages ld cpu_count walk top_dir n_workers sched = Except.ok (some out)) :
    (out.csv.isSome = true ↔ badFilter ld (pngsOf walk) ≠ []) ∧
    (∀ fp content, out.csv = some (fp, content) →
        fp = osPathJoin top_dir "Bad_Images.csv" ∧
        content = "Path\n" ++ joinNl (sortStrings (badFilter ld (pngsOf walk)))) ∧
    (badFilter ld (pngsOf walk) = [] → out.csv = none ∧ out.report = []) := by
  obtain ⟨k, hc, hrep, hcsv⟩ :=
    checkImages_ok ld cpu_count walk top_dir n_workers sched out h
  by_cases hnil : badFilter ld (pngsOf walk) = []
  · rw [if_pos hnil] at hcsv
    refine ⟨?_, ?_, fun _ => ⟨hcsv, ?_⟩⟩
    · rw [hcsv]; simp [hnil]
    · intro fp content hfp
      rw [hcsv] at hfp
      exact absurd hfp (by simp)
    · rw [hrep, hnil]; rfl
  · rw [if_neg hnil] at hcsv
    refine ⟨?_, ?_, fun hn => absurd hn hnil⟩
    · rw [hcsv]; simp [hnil]
    · intro fp content hfp
      rw [hcsv] at hfp
      obtain ⟨rfl, rfl⟩ := Prod.mk.injEq .. ▸ Option.some.inj hfp
      exact ⟨rfl, by rw [hrep]⟩

theorem c5_csv_iff_failures_witness :
    checkImages failOnB 1 [("d", ["b.png", "a.png"])] "d" 0 [0, 0, 0, 0]
      = Except.ok (some { report := ["d/b.png"],
                          csv := some ("d/Bad_Images.csv", "Path\nd/b.png") }) ∧
    ((({ report := ["d/b.png"],
         csv := some ("d/Bad_Images.csv", "Path\nd/b.png") } : RunOutput)).csv.isSome = true
      ↔ badFilter failOnB (pngsOf [("d", ["b.png", "a.png"])]) ≠ []) ∧
    (∀ fp content,
        (({ report := ["d/b.png"],
            csv := some ("d/Bad_Images.csv", "Path\nd/b.png") } : RunOutput)).csv
          = some (fp, content) →
        fp = osPathJoin "d" "Bad_Images.csv" ∧
        content = "Path\n" ++ joinNl (sortStrings (badFilter failOnB (pngsOf [("d", ["b.png", "a.png"])])))) ∧
    (badFilter failOnB (pngsOf [("d", ["b.png", "a.png"])]) = [] →
        (({ report := ["d/b.png"],
            csv := some ("d/Bad_Images.csv", "Path\nd/b.png") } : RunOutput)).csv = none ∧
        (({ report := ["d/b.png"],
            csv := some ("d/Bad_Images.csv", "Path\nd/b.png") } : RunOutput)).report = []) :=
  ⟨rfl,
   c5_csv_iff_failures failOnB 1 [("d", ["b.png", "a.png"])] "d" 0 [0, 0, 0, 0]
     { report := ["d/b.png"], csv := some ("d/Bad_Images.csv", "Path\nd/b.png") }
     rfl⟩

/-- Claim C6: with unique candidate paths, the report is sorted — pairwise
lexicographically smaller-or-equal, lexicographic on the character lists —
and contains no duplicates. -/
theorem c6_report_sorted_nodup (ld : LoadImg) (cpu_count : Int)
    (walk : List (String × List String)) (top_dir : String) (n_workers : Int)
    (sched : List Nat) (out : RunOutput)
    (h : checkImages ld cpu_count walk top_dir n_workers sched = Except.ok (some out))
    (hnd : (pngsOf walk).Nodup) :
    List.Sorted (· ≤ ·) out.report ∧
    List.Pairwise (fun a b : String => List.Lex (· < ·) a.data b.data ∨ a = b) out.report ∧
    out.report.Nodup := by
  obtain ⟨k, hc, hrep, -⟩ :=
    checkImages_ok ld cpu_count walk top_dir n_workers sched out h
  rw [hrep]
  have hs := sortStrings_sorted_le (badFilter ld (pngsOf walk))
  refine ⟨hs, ?_, ?_⟩
  · refine List.Pairwise.imp ?_ hs
    intro a b hab
    rcases lt_or_eq_of_le hab with hlt | heq
    · exact Or.inl (String.lt_iff_toList_lt.mp hlt)
    · exact Or.inr heq
  · exact (sortStrings_perm (badFilter ld (pngsOf walk))).symm.nodup
      (List.Nodup.filter _ hnd)

theorem c6_report_sorted_nodup_witness :
    checkImages failAll 1 [("d", ["b.png", "a.png"])] "d" 0 [0, 0, 0, 0]
      = Except.ok (some { report := ["d/a.png", "d/b.png"],
                          csv := some ("d/Bad_Images.csv", "Path\nd/a.png\nd/b.png") }) ∧
    (pngsOf [("d", ["b.png", "a.png"])]).Nodup ∧
    (List.Sorted (· ≤ ·) (["d/a.png", "d/b.png"] : List String) ∧
     List.Pairwise (fun a b : String => List.Lex (· < ·) a.data b.data ∨ a = b)
       (["d/a.png", "d/b.png"] : List String) ∧
     (["d/a.png", "d/b.png"] : List String).Nodup) :=
  ⟨rfl,
   by
     have hv : pngsOf [("d", ["b.png", "a.png"])] = ["d/a.png", "d/b.png"] := rfl
     rw [hv]; simp,
   by
    have := c6_report_sorted_nodup failAll 1 [("d", ["b.png", "a.png"])] "d" 0 [0, 0, 0, 0]
      { report := ["d/a.png", "d/b.png"],
        csv := some ("d/Bad_Images.csv", "Path\nd/a.png\nd/b.png") }
      rfl
      (by
        have hv : pngsOf [("d", ["b.png", "a.png"])] = ["d/a.png", "d/b.png"] := rfl
        rw [hv]; simp)
    simpa using this⟩

/-- Claim C7: in the coordinator's action order, every task-queue `put`
precedes every worker start, every worker start precedes the return of
`join()`, and `join()` returning precedes the drain of the result queue:
the positions in the trace are monotone in pipeline phase. -/
theorem c7_coordinator_order (pngs : List String) (k : Nat) (i j : Nat)
    (e f : Event) (hij : i < j)
    (hi : (coordinatorTrace pngs k).get? i = some e)
    (hj : (coordinatorTrace pngs k).get? j = some f) :
    phase e ≤ phase f := by
  rcases trace_phase pngs k i e hi with ⟨he, hb⟩ | ⟨he, hb1, hb2⟩ | ⟨he, hb⟩ | ⟨he, hb⟩ <;>
    rcases trace_phase pngs k j f hj with ⟨hf, hc⟩ | ⟨hf, hc1, hc2⟩ | ⟨hf, hc⟩ | ⟨hf, hc⟩ <;>
    omega

theorem c7_coordinator_order_witness :
    0 < 2 ∧
    (coordinatorTrace ["a.png"] 1).get? 0 = some (Event.putTask "a.png") ∧
    (coordinatorTrace ["a.png"] 1).get? 2 = some Event.joinRet ∧
    phase (Event.putTask "a.png") ≤ phase Event.joinRet :=
  ⟨by decide, rfl, rfl,
   c7_coordinator_order ["a.png"] 1 0 2 (Event.putTask "a.png") Event.joinRet
     (by decide) rfl rfl⟩

/-- Claim C8: two completed runs on the same directory with the same loader
and worker-count request — under any two schedules, i.e. any two worker
interleavings — return identical reports (and identical CSV artifacts). -/
theorem c8_idempotent (ld : LoadImg) (cpu_count : Int)
    (walk : List (String × List String)) (top_dir : String) (n_workers : Int)
    (sched1 sched2 : List Nat) (out1 out2 : RunOutput)
    (h1 : checkImages ld cpu_count walk top_dir n_workers sched1 = Except.ok (some out1))
    (h2 : checkImages ld cpu_count walk top_dir n_workers sched2 = Except.ok (some out2)) :
    out1.report = out2.report ∧ out1.csv = out2.csv := by
  obtain ⟨k1, -, hr1, hc1⟩ :=
    checkImages_ok ld cpu_count walk top_dir n_workers sched1 out1 h1
  obtain ⟨k2, -, hr2, hc2⟩ :=
    checkImages_ok ld cpu_count walk top_dir n_workers sched2 out2 h2
  have hrep : out1.report = out2.report := by rw [hr1, hr2]
  exact ⟨hrep, by rw [hc1, hc2, hrep]⟩

theorem c8_idempotent_witness :
    checkImages failAll 2 [("d", ["b.png", "a.png"])] "d" 0 [0, 0, 0, 0]
      = Except.ok (some { report := ["d/a.png", "d/b.png"],
                          csv := some ("d/Bad_Images.csv", "Path\nd/a.png\nd/b.png") }) ∧
    checkImages failAll 2 [("d", ["b.png", "a.png"])] "d" 0 [0, 1, 1, 0]
      = Except.ok (some { report := ["d/a.png", "d/b.png"],
                          csv := some ("d/Bad_Images.csv", "Path\nd/a.png\nd/b.png") }) ∧
    (({ report := ["d/a.png", "d/b.png"],
        csv := some ("d/Bad_Images.csv", "Path\nd/a.png\nd/b.png") } : RunOutput).report
      = ({ report := ["d/a.png", "d/b.png"],
           csv := some ("d/Bad_Images.csv", "Path\nd/a.png\nd/b.png") } : RunOutput).report ∧
     ({ report := ["d/a.png", "d/b.png"],
        csv := some ("d/Bad_Images.csv", "Path\nd/a.png\nd/b.png") } : RunOutput).csv
      = ({ report := ["d/a.png", "d/b.png"],
           csv := some ("d/Bad_Images.csv", "Path\nd/a.png\nd/b.png") } : RunOutput).csv) :=
  ⟨rfl, rfl,
   c8_idempotent failAll 2 [("d", ["b.png", "a.png"])] "d" 0 [0, 0, 0, 0] [0, 1, 1, 0]
     { report := ["d/a.png", "d/b.png"],
       csv := some ("d/Bad_Images.csv", "Path\nd/a.png\nd/b.png") }
     { report := ["d/a.png", "d/b.png"],
       csv := some ("d/Bad_Images.csv", "Path\nd/a.png\nd/b.png") }
     rfl rfl⟩

/-- Claim C9: a path is collected by the walk loop exactly when it is the
join of a walked root with a file whose last four characters are the
lowercase string `.png`; the filter is exactly the suffix test on character
lists, it is case-sensitive (`x.PNG` is never checked), and the four-letter
name `.png` itself passes. -/
theorem c9_png_selection (walk : List (String × List String)) (p f : String) :
    (p ∈ collectPngs walk ↔
      ∃ rf ∈ walk, ∃ g ∈ rf.2, isPngFile g = true ∧ osPathJoin rf.1 g = p) ∧
    (isPngFile f = true ↔ (".png" : String).data.IsSuffix f.data) ∧
    isPngFile "x.PNG" = false ∧ isPngFile ".png" = true := by
  refine ⟨?_, ?_, by decide, by decide⟩
  · simp [collectPngs, List.mem_flatMap, List.mem_filter, and_assoc]
  · unfold isPngFile lastFour
    rw [beq_iff_eq, String.ext_iff]
    have hmk : (String.mk (f.data.drop (f.data.length - 4))).data
        = f.data.drop (f.data.length - 4) := rfl
    rw [hmk]
    have h4 : (4 : Nat) = (".png" : String).data.length := by decide
    rw [h4]
    exact drop_sub_length_eq_iff f.data (".png" : String).data

/-- Claim C10: when the CSV file is written, its content is exactly the
string `Path\n` followed by the sorted failed paths joined by single
newlines; its length is 5 plus the path lengths plus one separator per
adjacent pair, so nothing — in particular no newline — follows the final
path. -/
theorem c10_csv_exact_content (ld : LoadImg) (cpu_count : Int)
    (walk : List (String × List String)) (top_dir : String) (n_workers : Int)
    (sched : List Nat) (out : RunOutput) (fp content : String)
    (h : checkImages ld cpu_count walk top_dir n_workers sched = Except.ok (some out))
    (hcsv : out.csv = some (fp, content)) :
    content = "Path\n" ++ joinNl out.report ∧
    content.length = 5 + (out.report.map String.length).sum + (out.report.length - 1) := by
  obtain ⟨k, hc, hrep, hc2⟩ :=
    checkImages_ok ld cpu_count walk top_dir n_workers sched out h
  rw [hc2] at hcsv
  by_cases hnil : badFilter ld (pngsOf walk) = []
  · rw [if_pos hnil] at hcsv
    exact absurd hcsv (by simp)
  · rw [if_neg hnil] at hcsv
    obtain ⟨-, rfl⟩ := Prod.mk.injEq .. ▸ Option.some.inj hcsv
    refine ⟨rfl, ?_⟩
    rw [String.length_append, joinNl_length]
    have h5 : ("Path\n" : String).length = 5 := by decide
    omega

theorem c10_csv_exact_content_witness :
    checkImages failAll 1 [("d", ["b.png", "a.png"])] "d" 0 [0, 0, 0, 0]
      = Except.ok (some { report := ["d/a.png", "d/b.png"],
                          csv := some ("d/Bad_Images.csv", "Path\nd/a.png\nd/b.png") }) ∧
    ({ report := ["d/a.png", "d/b.png"],
       csv := some ("d/Bad_Images.csv", "Path\nd/a.png\nd/b.png") } : RunOutput).csv
      = some ("d/Bad_Images.csv", "Path\nd/a.png\nd/b.png") ∧
    ("Path\nd/a.png\nd/b.png" : String)
      = "Path\n" ++ joinNl (["d/a.png", "d/b.png"] : List String) ∧
    ("Path\nd/a.png\nd/b.png" : String).length
      = 5 + ((["d/a.png", "d/b.png"] : List String).map String.length).sum
          + ((["d/a.png", "d/b.png"] : List String).length - 1) :=
  ⟨rfl, rfl, by
    have := c10_csv_exact_content failAll 1 [("d", ["b.png", "a.png"])] "d" 0 [0, 0, 0, 0]
      { report := ["d/a.png", "d/b.png"],
        csv := some ("d/Bad_Images.csv", "Path\nd/a.png\nd/b.png") }
      "d/Bad_Images.csv" "Path\nd/a.png\nd/b.png" rfl rfl
    simpa using this⟩

end CheckImageFiles
